import Mathlib

/-!
Verification development for the hawkular-openshift-agent metrics collector
manager (`collector/manager/metrics_collector_manager.go`).

The Go code is shallowly embedded as pure Lean functions.  Go maps
(`map[string]string`, `map[string]collector.MonitoredMetric`) are modelled as
association lists with unique keys maintained by `assocSet`; map lookup is
`assocGet` (first match).  Go `time.Duration` (an int64 of nanoseconds) is
modelled as `Int`.  Datapoint numeric values are never inspected by the
manager (they are only carried through), so they are modelled as `Int`.
-/

/-- A string-keyed map (Go `map[string]string`), used for environments and tag sets. -/
abbrev Env := List (String × String)

/-- Tag sets (Go `map[string]string`). -/
abbrev Tags := List (String × String)

/-- Map lookup: the value bound to `key`, if any (first matching entry). -/
def assocGet {β : Type} : List (String × β) → String → Option β
  | [], _ => none
  | (k, v) :: rest, key => if key = k then some v else assocGet rest key

/-- Map update (Go `m[k] = v`): bind `k` to `v`, dropping any previous binding. -/
def assocSet {β : Type} (m : List (String × β)) (k : String) (v : β) : List (String × β) :=
  (k, v) :: m.filter (fun p => p.1 != k)

/-- One collected sample: `hmetrics.Datapoint` (timestamp, value, labels/tags). -/
structure Datapoint where
  timestamp : Int
  value : Int
  tags : Tags
deriving DecidableEq, Repr

/-- A collected metric / emitted series: `hmetrics.MetricHeader`
(ID, tenant, type, list of datapoints).  The collector returns these with
`ID` holding the protocol-native metric name. -/
structure MetricHeader where
  id : String
  tenant : String
  type : String
  data : List Datapoint
deriving DecidableEq, Repr

/-- A declared metric from the endpoint configuration: `collector.MonitoredMetric`. -/
structure MonitoredMetric where
  id : String
  name : String
  type : String
  units : String
  description : String
  tags : Tags
deriving DecidableEq, Repr

/-- Adapter-supplied metadata for one metric name: `collector.MetricDetails`. -/
structure MetricDetails where
  name : String
  metricType : String
  description : String
deriving DecidableEq, Repr

/-- A metric definition pushed on the definitions channel: `hmetrics.MetricDefinition`. -/
structure MetricDefinition where
  tenant : String
  type : String
  id : String
  tags : Tags
deriving DecidableEq, Repr

/-! ## Go standard library `os.Expand`

Faithful model of Go's `os.Expand` / `getShellName` (os/env.go, Go 1.7/1.8 era,
the version vendored by the agent).  Go scans bytes; we scan characters, which
agrees on ASCII (all `${token}` syntax characters are ASCII). -/

/-- Go `isShellSpecialVar`. -/
def isShellSpecialVar (c : Char) : Bool :=
  c = '*' || c = '#' || c = '$' || c = '@' || c = '!' || c = '?' ||
    ('0' ≤ c && c ≤ '9')

/-- Go `isAlphaNum`. -/
def isAlphaNum (c : Char) : Bool :=
  c = '_' || ('0' ≤ c && c ≤ '9') || ('a' ≤ c && c ≤ 'z') || ('A' ≤ c && c ≤ 'Z')

/-- The leading run of alphanumeric characters together with its length
(the `// Scan alphanumerics.` loop of `getShellName`). -/
def scanAlphaNum : List Char → List Char × Nat
  | [] => ([], 0)
  | c :: cs =>
    if isAlphaNum c then
      let (n, w) := scanAlphaNum cs
      (c :: n, w + 1)
    else ([], 0)

/-- Scan `s[1:]` for the closing brace (the brace loop of `getShellName`):
returns the name up to the brace and the width consumed counted as in Go
(`i + 1` where `i` is the index of the brace in the original slice). -/
def scanToClose : List Char → Option (List Char × Nat)
  | [] => none
  | c :: cs =>
    if c = '\x7d' then some ([], 2)
    else
      match scanToClose cs with
      | some (n, w) => some (c :: n, w + 1)
      | none => none

/-- Go `getShellName`: the name referenced at the start of `s` (which in
`Expand` is the text right after a `$`), and the number of characters consumed. -/
def getShellName : List Char → List Char × Nat
  | [] => ([], 0)
  | c :: rest =>
    if c = '\x7b' then
      match rest with
      | c1 :: c2 :: _ =>
        if isShellSpecialVar c1 && c2 = '\x7d' then ([c1], 3)
        else (scanToClose rest).getD ([], 1)
      | _ => (scanToClose rest).getD ([], 1)
    else if isShellSpecialVar c then ([c], 1)
    else scanAlphaNum (c :: rest)

/-- Character-list worker for `osExpand`.  Every step consumes at least the
head character, so recursion is driven by a fuel bounded below by the input
length (`expandAux_fuel_irrelevant` shows any sufficient fuel gives the same
result); this keeps the definition structurally recursive and kernel-reducible. -/
def expandAux (mapping : String → String) : Nat → List Char → List Char
  | _, [] => []
  | 0, l => l
  | fuel + 1, c :: cs =>
    if c = '$' ∧ cs ≠ [] then
      let (name, w) := getShellName cs
      (mapping (String.mk name)).data ++ expandAux mapping fuel (cs.drop w)
    else
      c :: expandAux mapping fuel cs

theorem expandAux_fuel_irrelevant (mapping : String → String) :
    ∀ (n m : Nat) (l : List Char), l.length ≤ n → l.length ≤ m →
      expandAux mapping n l = expandAux mapping m l := by
  intro n
  induction n with
  | zero =>
    intro m l hn _
    cases l with
    | nil => cases m <;> rfl
    | cons c cs => simp at hn
  | succ n ih =>
    intro m l hn hm
    cases l with
    | nil => cases m <;> rfl
    | cons c cs =>
      cases m with
      | zero => simp at hm
      | succ m =>
        simp only [expandAux]
        by_cases h : c = '$' ∧ cs ≠ []
        · simp only [if_pos h]
          have hlen : (cs.drop (getShellName cs).2).length ≤ cs.length := by
            simp [List.length_drop]
          simp only [List.length_cons] at hn hm
          rw [ih m (cs.drop (getShellName cs).2) (le_trans hlen (by omega))
            (le_trans hlen (by omega))]
        · simp only [if_neg h]
          simp only [List.length_cons] at hn hm
          rw [ih m cs (by omega) (by omega)]

/-- Go `os.Expand s mapping`: replace `${var}` / `$var` tokens in `s` using `mapping`. -/
def osExpand (mapping : String → String) (s : String) : String :=
  String.mk (expandAux mapping s.data.length s.data)

/-! ## The agent's expansion utility (`util/expand`, not under `src/`) -/

/-- Configuration of the token-expansion mapping (`expand.MappingFuncConfig`):
the extra environment, whether OS environment variables may be read, and
whether unmapped tokens are preserved. -/
structure MappingFuncConfig where
  env : Env
  useOSEnv : Bool
  doNotExpandIfNotFound : Bool
deriving Repr

/-- Modelled from the spec: `expand.MappingFunc` of `util/expand` (the package is
not under `src/`).  Spec §4.3: the mapping resolves a token from the configured
environment; the global layer "may read OS-env variables" while other layers
"may *not* read OS-env"; "Unresolved tokens expand to the literal placeholder
when the expander is configured do-not-expand-if-not-found; otherwise empty
string."  The OS environment is passed explicitly as `osEnv`. -/
def mappingFunc (cfg : MappingFuncConfig) (osEnv : Env) (name : String) : String :=
  match assocGet cfg.env name with
  | some v => v
  | none =>
    match (if cfg.useOSEnv then assocGet osEnv name else none) with
    | some v => v
    | none =>
      if cfg.doNotExpandIfNotFound then "$\x7b" ++ name ++ "\x7d" else ""

/-- Modelled from the spec: `tags.Tags.ExpandTokens` of `config/tags` (the
package is not under `src/`).  Spec §4.3: "Each layer independently undergoes
token expansion" — every tag value is expanded with the given mapping
configuration; keys are left alone. -/
def expandTokens (t : Tags) (cfg : MappingFuncConfig) (osEnv : Env) : Tags :=
  t.map (fun p => (p.1, osExpand (mappingFunc cfg osEnv) p.2))

/-- Modelled from the spec: `collector.GetMetricUnits` (not under `src/`)
validates a units symbol against the known-units table and returns the symbol;
the claims depend only on the returned symbol, which for a valid (or empty)
configured symbol is the symbol itself. -/
def getMetricUnits (u : String) : String := u

/-! ## Substring test (Go `strings.Contains`) -/

/-- Whether `needle` occurs inside the second list (Go `strings.Contains`,
character-level; agrees with Go's byte-level search for an ASCII needle). -/
def subSearch (needle : List Char) : List Char → Bool
  | [] => needle.isEmpty
  | c :: cs => needle.isPrefixOf (c :: cs) || subSearch needle cs

/-- Go `strings.Contains(s, "${")`: does `s` still hold an unresolved token start. -/
def strContainsTok (s : String) : Bool :=
  subSearch ['$', '\x7b'] s.data

-- quick sanity checks of the expansion model
example : osExpand (fun n => if n = "k" then "v" else "") "a_$\x7bk\x7d_b" = "a_v_b" := by decide
example : osExpand (fun n => "<" ++ n ++ ">") "x$name y" = "x<name> y" := by decide
example : strContainsTok "abc$\x7bk\x7d" = true := by decide
example : strContainsTok "abc$k" = false := by decide

/-! ## Label-key collection and the default split template
(`StartCollecting`, lines 211–237) -/

/-- All label keys observed across a metric's datapoints, in datapoint order
(the raw contents of the Go `keysMap` before deduplication). -/
def labelKeysOf (data : List Datapoint) : List String :=
  (data.map (fun dp => dp.tags.map Prod.fst)).flatten

/-- The distinct label keys across the datapoints, sorted lexicographically
(Go: the `keysMap` set, iterated into `keys` and passed to `sort.Strings`). -/
def sortedLabelKeys (data : List Datapoint) : List String :=
  List.insertionSort (fun a b => a ≤ b) (labelKeysOf data).dedup

/-- The `k1=$\x7bk1\x7d,k2=$\x7bk2\x7d,…` string built by the Go
comma-accumulator loop over the sorted keys (the `keysString` buffer;
the pair threads the buffer contents and the current `comma` separator). -/
def keysTemplate (keys : List String) : String :=
  (keys.foldl
    (fun (acc : String × String) k =>
      (acc.1 ++ acc.2 ++ k ++ "=$\x7b" ++ k ++ "\x7d", ","))
    ("", "")).1

/-- The id suffix exactly as the spec words it: `k1=$\x7bk1\x7d,k2=$\x7bk2\x7d,…`
— the comma-separated list of `k=$\x7bk\x7d` items.  Written independently of the
source's accumulator loop, to compare the two. -/
def specKeysTemplate : List String → String
  | [] => ""
  | [k] => k ++ "=$\x7b" ++ k ++ "\x7d"
  | k :: ks => k ++ "=$\x7b" ++ k ++ "\x7d" ++ "," ++ specKeysTemplate ks

/-! ## The per-endpoint scheduler context

Everything the goroutine of `StartCollecting` closes over: the agent
configuration fields it reads, the endpoint fields it reads, the adapter's
additional environment, and (explicitly, for OS-env reasoning) the process
environment. -/

structure SchedulerCtx where
  /-- `GetId()` of the collector. -/
  collectorId : String
  /-- `mcm.Config.Collector.Metric_ID_Prefix`. -/
  metricIdPfx : String
  /-- `mcm.Config.Collector.Tags` (the global tag layer). -/
  globalTags : Tags
  /-- `endpoint.Tenant`. -/
  tenant : String
  /-- `endpoint.Tags` (the endpoint tag layer). -/
  endpointTags : Tags
  /-- `endpoint.Metrics` (the declared metric list). -/
  endpointMetrics : List MonitoredMetric
  /-- `theCollector.GetAdditionalEnvironment()`. -/
  additionalEnv : Env
  /-- The OS process environment read through `os.Getenv`. -/
  osEnv : Env
deriving Repr

/-- The `monitoredMetricsByNameMap` cache: endpoint metrics keyed on name
(Go map insertion; a later metric with the same name overwrites). -/
def buildMonitoredMap (ms : List MonitoredMetric) : List (String × MonitoredMetric) :=
  ms.foldl (fun m mm => assocSet m mm.name mm) []

/-- The `mappingFunc` local of the goroutine: the collector's additional
environment only, no OS env, unresolved tokens preserved. -/
def idMappingCfg (ctx : SchedulerCtx) : MappingFuncConfig :=
  ⟨ctx.additionalEnv, false, true⟩

/-- The `mappingFuncWithOsEnv` local of the goroutine: additional environment
plus OS env, unresolved tokens become empty. -/
def idMappingCfgWithOs (ctx : SchedulerCtx) : MappingFuncConfig :=
  ⟨ctx.additionalEnv, true, false⟩

/-- Expansion of the `MonitoredMetric.id` template against the endpoint's
additional environment only (`os.Expand(monitoredMetric.ID, mappingFunc)`). -/
def monitoredIdExpansion (ctx : SchedulerCtx) (mm : MonitoredMetric) : String :=
  osExpand (mappingFunc (idMappingCfg ctx) ctx.osEnv) mm.id

/-- Line 196: the prefixed and token-expanded metric id —
`os.Expand(prefix, mappingFuncWithOsEnv) + os.Expand(monitoredMetric.ID, mappingFunc)`. -/
def expandedMetricId (ctx : SchedulerCtx) (mm : MonitoredMetric) : String :=
  osExpand (mappingFunc (idMappingCfgWithOs ctx) ctx.osEnv) ctx.metricIdPfx ++
    monitoredIdExpansion ctx mm

/-- Lines 211–237: if the expanded id has no unresolved `$\x7b` token and the
datapoints carry labels, rewrite the id to the deterministic
`<id>\x7bk1=$\x7bk1\x7d,…\x7d` template over the sorted label keys. -/
def computeIdTemplate (ctx : SchedulerCtx) (mm : MonitoredMetric)
    (data : List Datapoint) : String :=
  let id1 := expandedMetricId ctx mm
  if strContainsTok id1 = false then
    let keys := sortedLabelKeys data
    if keys.isEmpty = false then
      id1 ++ "\x7b" ++ keysTemplate keys ++ "\x7d"
    else id1
  else id1

/-- Lines 240–250: one split-out `MetricHeader` per datapoint, carrying that
single datapoint; the id is the template expanded against the datapoint's own
tag map (no OS env, missing tokens become empty). -/
def splitMetric (ctx : SchedulerCtx) (cm : MetricHeader) (idTemplate : String) :
    List MetricHeader :=
  cm.data.map (fun dp =>
    ⟨osExpand (mappingFunc ⟨dp.tags, false, false⟩ ctx.osEnv) idTemplate,
      cm.tenant, cm.type, [dp]⟩)

/-- The synthetic `MonitoredMetric` fabricated (lines 187–193) when the
endpoint declares no metric list: name and id are the collected name, the type
is the collected type; other fields are Go zero values. -/
def syntheticMonitoredMetric (cm : MetricHeader) : MonitoredMetric :=
  ⟨cm.id, cm.id, cm.type, "", "", []⟩

/-- `collectedMetrics[i]` with its `ID` overwritten. -/
def setHdrId (cm : MetricHeader) (i : String) : MetricHeader :=
  ⟨i, cm.tenant, cm.type, cm.data⟩

/-- Result of processing one collected metric inside the tick loop: the
(possibly id-rewritten, possibly emptied) entry left in `collectedMetrics`,
the batches pushed on the metrics channel by the split branch, and the updated
`metricDefinitionsNeeded` map. -/
def processMetricKnown (ctx : SchedulerCtx)
    (declared needed : List (String × MonitoredMetric))
    (cm : MetricHeader) (mm : MonitoredMetric) :
    MetricHeader × List (List MetricHeader) × List (String × MonitoredMetric) :=
  let id2 := computeIdTemplate ctx mm cm.data
  if strContainsTok id2 then
    let sm := splitMetric ctx cm id2
    let needed' := sm.foldl
      (fun acc s =>
        if (assocGet declared s.id).isSome then acc else assocSet acc s.id mm)
      needed
    (setHdrId cm "", [sm], needed')
  else
    (setHdrId cm id2, [],
      if (assocGet declared id2).isSome then needed else assocSet needed id2 mm)

/-- Lines 173–269, one iteration of the `for i, collectedMetric` loop:
dispatch on the declared-metric lookup (drop unknown names when a list was
declared, fabricate a synthetic declaration when none was), then run the
expansion/split pipeline. -/
def processMetric (ctx : SchedulerCtx)
    (declared needed : List (String × MonitoredMetric))
    (cm : MetricHeader) :
    MetricHeader × List (List MetricHeader) × List (String × MonitoredMetric) :=
  let mmap := buildMonitoredMap ctx.endpointMetrics
  if mmap.isEmpty = false then
    match assocGet mmap cm.id with
    | none => (setHdrId cm "", [], needed)
    | some mm => processMetricKnown ctx declared needed cm mm
  else
    processMetricKnown ctx declared needed cm (syntheticMonitoredMetric cm)

/-! ## `createMetricDefinition` (lines 341–469) -/

/-- The `metricDetail` found for a monitored metric: the Go loop keeps the
*last* entry of `metricDetails` whose name matches (zero value if none). -/
def resolvedMetricDetail (details : List MetricDetails) (mm : MonitoredMetric) :
    MetricDetails :=
  details.foldl (fun acc m => if mm.name = m.name then m else acc) ⟨"", "", ""⟩

/-- Lines 396–404: declared type, else adapter-reported type, else `gauge`. -/
def resolvedType (details : List MetricDetails) (mm : MonitoredMetric) : String :=
  if mm.type = "" then
    if (resolvedMetricDetail details mm).metricType = "" then "gauge"
    else (resolvedMetricDetail details mm).metricType
  else mm.type

/-- Lines 397–407: declared description, else adapter-reported description. -/
def resolvedDescription (details : List MetricDetails) (mm : MonitoredMetric) : String :=
  if mm.description = "" then (resolvedMetricDetail details mm).description
  else mm.description

/-- Lines 415–425: the tag-expansion environment — the four injected
`METRIC:*` values, overridden by the collector's additional environment
(the Go loop writes `additionalEnv` over the `METRIC:*` map last). -/
def defExpansionEnv (ctx : SchedulerCtx) (mm : MonitoredMetric)
    (metricId unitsSymbol metricDescription : String) : Env :=
  ctx.additionalEnv ++
    [("METRIC:name", mm.name), ("METRIC:id", metricId),
     ("METRIC:units", unitsSymbol), ("METRIC:description", metricDescription)]

/-- The global tag layer (`mcm.Config.Collector.Tags.ExpandTokens(withOsEnv)`). -/
def globalLayer (ctx : SchedulerCtx) (env : Env) : Tags :=
  expandTokens ctx.globalTags ⟨env, true, false⟩ ctx.osEnv

/-- The endpoint tag layer (`endpoint.Tags.ExpandTokens(noOsEnv)`). -/
def endpointLayer (ctx : SchedulerCtx) (env : Env) : Tags :=
  expandTokens ctx.endpointTags ⟨env, false, false⟩ ctx.osEnv

/-- The metric's custom tags (`monitoredMetric.Tags.ExpandTokens(noOsEnv)`). -/
def metricCustomLayer (ctx : SchedulerCtx) (mm : MonitoredMetric) (env : Env) : Tags :=
  expandTokens mm.tags ⟨env, false, false⟩ ctx.osEnv

/-- Lines 436–448: the metric tag layer — the custom tags plus the fixed
`description` and `units` tags (each only when non-empty). -/
def metricLayer (ctx : SchedulerCtx) (mm : MonitoredMetric) (env : Env)
    (metricDescription unitsSymbol : String) : Tags :=
  let t0 := metricCustomLayer ctx mm env
  let t1 := if metricDescription ≠ "" then assocSet t0 "description" metricDescription
            else t0
  if unitsSymbol ≠ "" then assocSet t1 "units" unitsSymbol else t1

/-- `tags.Tags.AppendTags`: write every entry of `src` over `dest`. -/
def appendTags (dest src : Tags) : Tags :=
  src.foldl (fun d p => assocSet d p.1 p.2) dest

/-- Lines 450–454: `allMetricTags` — endpoint tags, overridden by metric tags,
overridden by global tags (`AppendTags` in that order onto an empty map). -/
def definitionTags (ctx : SchedulerCtx) (details : List MetricDetails)
    (metricId : String) (mm : MonitoredMetric) : Tags :=
  let metricDescription := resolvedDescription details mm
  let unitsSymbol := getMetricUnits mm.units
  let env := defExpansionEnv ctx mm metricId unitsSymbol metricDescription
  appendTags
    (appendTags (appendTags [] (endpointLayer ctx env))
      (metricLayer ctx mm env metricDescription unitsSymbol))
    (globalLayer ctx env)

/-- Lines 380–463: the definition built for one needed (id, monitored metric)
entry. -/
def buildDefinition (ctx : SchedulerCtx) (details : List MetricDetails)
    (metricId : String) (mm : MonitoredMetric) : MetricDefinition :=
  ⟨ctx.tenant, resolvedType details mm, metricId,
    definitionTags ctx details metricId mm⟩

/-- `createMetricDefinition`: the batch pushed on the definitions channel (if
any) and whether the call returned a nil error.  `detailsResult` is the
adapter's `CollectMetricDetails` response; on failure the details fall back to
an empty list, the batch is still pushed, and the error is returned. -/
def detailsOf : Except String (List MetricDetails) → List MetricDetails
  | .ok ds => ds
  | .error _ => []

def detailsOk : Except String (List MetricDetails) → Bool
  | .ok _ => true
  | .error _ => false

def createMetricDefinition (ctx : SchedulerCtx)
    (detailsResult : Except String (List MetricDetails))
    (needed : List (String × MonitoredMetric)) :
    Option (List MetricDefinition) × Bool :=
  if needed.isEmpty then (none, true)
  else
    (some (needed.map (fun p => buildDefinition ctx (detailsOf detailsResult) p.1 p.2)),
      detailsOk detailsResult)

/-! ## One tick of the scheduler loop (lines 158–301) -/

/-- External events of one tick: the adapter's `CollectMetrics` result, its
`CollectMetricDetails` result, the formatted wall-clock time and the stopwatch
reading (both opaque strings used only in the status message). -/
structure TickInput where
  collectResult : Except String (List MetricHeader)
  detailsResult : Except String (List MetricDetails)
  now : String
  elapsed : String
deriving Repr

/-- Observable outcome of one tick: the batches pushed on the metrics channel
in order, the batches pushed on the definitions channel, the updated
declared-definitions map, the amount added to the agent's
`DataPointsCollected` counter, and the value written to the status registry
for this endpoint. -/
structure TickResult where
  metricsPushes : List (List MetricHeader)
  defsPushes : List (List MetricDefinition)
  declared : List (String × MonitoredMetric)
  counterDelta : Nat
  statusSet : String
deriving Repr

/-- Line 163: the status message of a failed collection. -/
def collectErrorMsg (id now err : String) : String :=
  "Failed to collect metrics from [" ++ id ++ "] at [" ++ now ++ "]. err=" ++ err

/-- Lines 298–300: the status message of a successful collection. -/
def okStatusMsg (now : String) (n : Nat) (elapsed : String) : String :=
  "OK. Last collection at [" ++ now ++ "] gathered [" ++ toString n ++
    "] metrics in [" ++ elapsed ++ "]"

/-- The `for i, collectedMetric := range collectedMetrics` loop: the rewritten
header list, the split batches pushed during the loop, and the accumulated
`metricDefinitionsNeeded` map. -/
def tickStep (ctx : SchedulerCtx) (declared : List (String × MonitoredMetric))
    (acc : List MetricHeader × List (List MetricHeader) × List (String × MonitoredMetric))
    (cm : MetricHeader) :
    List MetricHeader × List (List MetricHeader) × List (String × MonitoredMetric) :=
  let r := processMetric ctx declared acc.2.2 cm
  (acc.1 ++ [r.1], acc.2.1 ++ r.2.1, r.2.2)

def tickLoopBody (ctx : SchedulerCtx) (declared : List (String × MonitoredMetric))
    (collected : List MetricHeader) :
    List MetricHeader × List (List MetricHeader) × List (String × MonitoredMetric) :=
  collected.foldl (tickStep ctx declared) ([], [], [])

/-- One full tick (lines 158–301): on collection error only the status entry
changes; otherwise run the loop, filter out emptied ids, push the remaining
batch, create needed definitions (merging into the declared map only when
that call succeeded), bump the counter and set the OK status. -/
def runTick (ctx : SchedulerCtx) (declared : List (String × MonitoredMetric))
    (tin : TickInput) : TickResult :=
  match tin.collectResult with
  | .error e => ⟨[], [], declared, 0, collectErrorMsg ctx.collectorId tin.now e⟩
  | .ok collectedMetrics =>
    let r := tickLoopBody ctx declared collectedMetrics
    let remaining := r.1.filter (fun h => h.id ≠ "")
    let needed := r.2.2
    let total := (r.2.1.map List.length).sum + remaining.length
    let d := createMetricDefinition ctx tin.detailsResult needed
    let defsPushes : List (List MetricDefinition) :=
      if needed.isEmpty = false then d.1.toList else []
    let declared' :=
      if needed.isEmpty = false ∧ d.2 = true then
        needed.foldl (fun m p => assocSet m p.1 p.2) declared
      else declared
    ⟨r.2.1 ++ [remaining], defsPushes, declared', total,
      okStatusMsg tin.now total tin.elapsed⟩

/-! ## A whole scheduler run (the goroutine's lifetime) -/

/-- Scheduler-goroutine state observable across ticks: the persistent
`metricDefinitionsDeclared` map plus the history of channel pushes, the
agent datapoint counter and the last status write. -/
structure RunState where
  declared : List (String × MonitoredMetric)
  metricsPushed : List (List MetricHeader)
  defsPushed : List (List MetricDefinition)
  datapointCounter : Nat
  statusSet : Option String
deriving Repr

/-- The goroutine's state right after `StartCollecting` spawns it. -/
def initRunState : RunState := ⟨[], [], [], 0, none⟩

/-- Process one tick and accumulate its observable effects. -/
def runStep (ctx : SchedulerCtx) (st : RunState) (tin : TickInput) : RunState :=
  let r := runTick ctx st.declared tin
  ⟨r.declared, st.metricsPushed ++ r.metricsPushes, st.defsPushed ++ r.defsPushes,
    st.datapointCounter + r.counterDelta, some r.statusSet⟩

/-- A scheduler's whole lifetime: the ticks it consumed between
`StartCollecting` and the stop of its ticker. -/
def runScheduler (ctx : SchedulerCtx) (ticks : List TickInput) : RunState :=
  ticks.foldl (runStep ctx) initRunState

/-! ## Interval determination and the manager's ticker table
(lines 82–134, 306–339) -/

/-- Lines 96–121: the effective collection interval in nanoseconds.
`parseDuration` stands for Go's `time.ParseDuration`.  Endpoint interval when
present, else the default; an unparseable string falls back to the default and
then to five minutes; finally clamped up to the minimum when that parses. -/
def effectiveInterval (parseDuration : String → Option Int)
    (defaultIntervalStr minimumIntervalStr endpointIntervalStr : String) : Int :=
  let s := if endpointIntervalStr = "" then defaultIntervalStr else endpointIntervalStr
  let ci :=
    match parseDuration s with
    | some d => d
    | none =>
      match parseDuration defaultIntervalStr with
      | some d => d
      | none => 300000000000
  match parseDuration minimumIntervalStr with
  | some m => if ci < m then m else ci
  | none => ci

/-- A `time.Ticker` as far as the manager observes it: its period. -/
structure Ticker where
  interval : Int
deriving DecidableEq, Repr

/-- The manager's mutable state: the `Tickers` table and the endpoint entries
of the process-wide status registry. -/
structure ManagerState where
  tickers : List (String × Ticker)
  statusEndpoints : List (String × String)
deriving Repr

/-- Line 87: the status message recorded for a disabled endpoint. -/
def disabledMsg (id : String) : String :=
  "Will not collect metrics from [" ++ id ++ "] - it has been disabled."

/-- `StopCollecting` (lines 306–322): drop the ticker under the id, if any,
and always blank the endpoint's status entry. -/
def stopCollecting (st : ManagerState) (collectorId : String) : ManagerState :=
  ⟨st.tickers.filter (fun p => p.1 ≠ collectorId),
    assocSet st.statusEndpoints collectorId ""⟩

/-- What `StartCollecting` reads from the collector before spawning:
its id, the endpoint's enabled flag, and the endpoint's interval string. -/
structure CollectorInfo where
  id : String
  enabled : Bool
  collectionIntervalStr : String
deriving Repr

/-- `StartCollecting` at the manager level (lines 82–134): a disabled endpoint
only records a status message; otherwise stop any scheduler under the same id,
then install a ticker at the effective interval and mark the endpoint STARTING. -/
def startCollecting (parseDuration : String → Option Int)
    (defaultIntervalStr minimumIntervalStr : String)
    (st : ManagerState) (c : CollectorInfo) : ManagerState :=
  if c.enabled = false then
    ⟨st.tickers, assocSet st.statusEndpoints c.id (disabledMsg c.id)⟩
  else
    let st1 := stopCollecting st c.id
    let iv := effectiveInterval parseDuration defaultIntervalStr minimumIntervalStr
      c.collectionIntervalStr
    ⟨assocSet st1.tickers c.id ⟨iv⟩, assocSet st1.statusEndpoints c.id "STARTING"⟩

/-! ## Helper lemmas about the association-list map operations -/

theorem assocGet_filter_ne {β : Type} (k key : String) (h : key ≠ k) :
    ∀ m : List (String × β),
      assocGet (m.filter (fun p => p.1 != k)) key = assocGet m key := by
  intro m
  induction m with
  | nil => rfl
  | cons p rest ih =>
    obtain ⟨k₀, v₀⟩ := p
    by_cases hk : k₀ = k
    · subst hk
      have hkey : key ≠ k₀ := h
      simp [List.filter_cons, assocGet, hkey, ih]
    · simp [List.filter_cons, assocGet, hk, ih]

theorem assocGet_assocSet {β : Type} (m : List (String × β)) (k key : String) (v : β) :
    assocGet (assocSet m k v) key = if key = k then some v else assocGet m key := by
  by_cases h : key = k
  · simp [assocSet, assocGet, h]
  · simp [assocSet, assocGet, h, assocGet_filter_ne k key h m]

theorem mem_assocSet {β : Type} {m : List (String × β)} {k : String} {v : β}
    {p : String × β} (h : p ∈ assocSet m k v) : p = (k, v) ∨ p ∈ m := by
  rcases List.mem_cons.mp h with h1 | h2
  · exact Or.inl h1
  · exact Or.inr (List.mem_filter.mp h2).1

theorem assocGet_eq_none_of_not_mem_keys {β : Type} :
    ∀ (m : List (String × β)) (k : String), k ∉ m.map Prod.fst → assocGet m k = none := by
  intro m
  induction m with
  | nil => intro k _; rfl
  | cons p rest ih =>
    intro k h
    obtain ⟨k₀, v₀⟩ := p
    simp only [List.map_cons, List.mem_cons] at h
    push_neg at h
    simp [assocGet, h.1, ih k h.2]

theorem assocGet_foldl_set_mono {β : Type} :
    ∀ (l : List (String × β)) (d : List (String × β)) (k : String),
      (assocGet d k).isSome = true →
      (assocGet (l.foldl (fun m p => assocSet m p.1 p.2) d) k).isSome = true := by
  intro l
  induction l with
  | nil => intro d k h; exact h
  | cons p rest ih =>
    intro d k h
    simp only [List.foldl_cons]
    apply ih
    rw [assocGet_assocSet]
    by_cases hk : k = p.1 <;> simp [hk, h]

theorem assocGet_foldl_set_of_mem {β : Type} :
    ∀ (l : List (String × β)) (d : List (String × β)) (k : String) (v : β),
      (k, v) ∈ l →
      (assocGet (l.foldl (fun m p => assocSet m p.1 p.2) d) k).isSome = true := by
  intro l
  induction l with
  | nil =>
    intro d k v h
    cases h
  | cons p rest ih =>
    intro d k v h
    rcases List.mem_cons.mp h with h1 | h2
    · obtain ⟨k₁, v₁⟩ := p
      cases h1
      simp only [List.foldl_cons]
      apply assocGet_foldl_set_mono
      rw [assocGet_assocSet]
      simp
    · simp only [List.foldl_cons]
      exact ih _ k v h2

/-! ## The comma-accumulator loop equals the spec's comma-separated list -/

theorem brace_comma_append (S : String) :
    ("\x7d" : String) ++ ("," ++ S) = "\x7d," ++ S := by
  rw [← String.append_assoc]
  simp

theorem keysTemplate_loop :
    ∀ (ks : List String) (acc : String),
      (ks.foldl
        (fun (a : String × String) k =>
          (a.1 ++ a.2 ++ k ++ "=$\x7b" ++ k ++ "\x7d", ","))
        (acc, ",")).1
      = acc ++ (if ks.isEmpty then "" else "," ++ specKeysTemplate ks) := by
  intro ks
  induction ks with
  | nil =>
    intro acc
    simp
  | cons k rest ih =>
    intro acc
    simp only [List.foldl_cons]
    rw [ih]
    cases rest with
    | nil => simp [specKeysTemplate, String.append_assoc]
    | cons r rs => simp [specKeysTemplate, String.append_assoc, brace_comma_append]

theorem keysTemplate_eq_spec (ks : List String) :
    keysTemplate ks = specKeysTemplate ks := by
  cases ks with
  | nil => rfl
  | cons k rest =>
    unfold keysTemplate
    simp only [List.foldl_cons]
    rw [keysTemplate_loop]
    cases rest with
    | nil => simp [specKeysTemplate]
    | cons r rs => simp [specKeysTemplate, String.append_assoc, brace_comma_append]

/-! ## Properties of the sorted label keys -/

theorem mem_sortedLabelKeys (data : List Datapoint) (k : String) :
    k ∈ sortedLabelKeys data ↔ ∃ dp ∈ data, ∃ v, (k, v) ∈ dp.tags := by
  unfold sortedLabelKeys labelKeysOf
  rw [List.mem_insertionSort, List.mem_dedup, List.mem_flatten]
  constructor
  · rintro ⟨l, hl, hk⟩
    rcases List.mem_map.mp hl with ⟨dp, hdp, rfl⟩
    rcases List.mem_map.mp hk with ⟨⟨k', v⟩, hmem, hfst⟩
    subst hfst
    exact ⟨dp, hdp, v, hmem⟩
  · rintro ⟨dp, hdp, v, hv⟩
    exact ⟨dp.tags.map Prod.fst, List.mem_map.mpr ⟨dp, hdp, rfl⟩,
      List.mem_map.mpr ⟨(k, v), hv, rfl⟩⟩

theorem sortedLabelKeys_sorted (data : List Datapoint) :
    (sortedLabelKeys data).Sorted (fun a b => a ≤ b) :=
  List.sorted_insertionSort _ _

theorem sortedLabelKeys_nodup (data : List Datapoint) :
    (sortedLabelKeys data).Nodup :=
  (List.perm_insertionSort _ _).nodup_iff.mpr (List.nodup_dedup _)

theorem sortedLabelKeys_ne_nil {data : List Datapoint}
    (h : ∃ dp ∈ data, dp.tags ≠ []) : sortedLabelKeys data ≠ [] := by
  rcases h with ⟨dp, hdp, htags⟩
  cases htags' : dp.tags with
  | nil => exact absurd htags' htags
  | cons p rest =>
    apply List.ne_nil_of_mem (a := p.1)
    rw [mem_sortedLabelKeys]
    exact ⟨dp, hdp, p.2, by rw [htags']; exact List.mem_cons_self _ _⟩

theorem sortedLabelKeys_perm_invariant {data data' : List Datapoint}
    (h : List.Perm (labelKeysOf data) (labelKeysOf data')) :
    sortedLabelKeys data = sortedLabelKeys data' :=
  List.eq_of_perm_of_sorted
    ((List.perm_insertionSort _ _).trans (h.dedup.trans
      (List.perm_insertionSort _ _).symm))
    (List.sorted_insertionSort _ _) (List.sorted_insertionSort _ _)

/-! ## The no-OS-env mapping ignores the OS environment -/

theorem mappingFunc_no_os (env : Env) (d : Bool) (o₁ o₂ : Env) :
    mappingFunc ⟨env, false, d⟩ o₁ = mappingFunc ⟨env, false, d⟩ o₂ := by
  funext name
  simp [mappingFunc]

theorem mappingFunc_missing_empty (env : Env) (o : Env) (name : String)
    (h : assocGet env name = none) :
    mappingFunc ⟨env, false, false⟩ o name = "" := by
  simp [mappingFunc, h]

/-! ## Lookup through the precedence merge -/

theorem assocGet_appendTags (k : String) :
    ∀ (s d : Tags), (s.map Prod.fst).Nodup →
      assocGet (appendTags d s) k =
        (match assocGet s k with
         | some v => some v
         | none => assocGet d k) := by
  intro s
  induction s with
  | nil =>
    intro d _
    rfl
  | cons p rest ih =>
    intro d h
    obtain ⟨k₀, v₀⟩ := p
    simp only [List.map_cons, List.nodup_cons] at h
    have hrest := h.2
    have hnotmem := h.1
    show assocGet (appendTags (assocSet d k₀ v₀) rest) k = _
    rw [ih (assocSet d k₀ v₀) hrest]
    by_cases hk : k = k₀
    · subst hk
      have hnone : assocGet rest k = none :=
        assocGet_eq_none_of_not_mem_keys rest k hnotmem
      simp [hnone, assocGet, assocGet_assocSet]
    · cases hres : assocGet rest k with
      | some v => simp [assocGet, hk, hres]
      | none => simp [assocGet, hk, hres, assocGet_assocSet, assocGet_filter_ne k₀ k hk d]

/-! ## What enters the needed-definitions map -/

theorem mem_foldl_neededAdd (declared : List (String × MonitoredMetric))
    (mm : MonitoredMetric) :
    ∀ (l : List MetricHeader) (acc : List (String × MonitoredMetric))
      (p : String × MonitoredMetric),
      p ∈ l.foldl
        (fun a s =>
          if (assocGet declared s.id).isSome then a else assocSet a s.id mm)
        acc →
      p ∈ acc ∨ assocGet declared p.1 = none := by
  intro l
  induction l with
  | nil =>
    intro acc p h
    exact Or.inl h
  | cons s rest ih =>
    intro acc p h
    simp only [List.foldl_cons] at h
    rcases ih _ p h with h1 | h2
    · by_cases hd : (assocGet declared s.id).isSome
      · rw [if_pos hd] at h1
        exact Or.inl h1
      · rw [if_neg hd] at h1
        rcases mem_assocSet h1 with h3 | h4
        · right
          rw [h3]
          exact Option.not_isSome_iff_eq_none.mp hd
        · exact Or.inl h4
    · exact Or.inr h2

theorem mem_needed_processMetricKnown {ctx : SchedulerCtx}
    {declared needed : List (String × MonitoredMetric)}
    {cm : MetricHeader} {mm : MonitoredMetric} {p : String × MonitoredMetric}
    (h : p ∈ (processMetricKnown ctx declared needed cm mm).2.2) :
    p ∈ needed ∨ assocGet declared p.1 = none := by
  unfold processMetricKnown at h
  by_cases hc : strContainsTok (computeIdTemplate ctx mm cm.data) = true
  · rw [if_pos hc] at h
    exact mem_foldl_neededAdd declared mm _ needed p h
  · rw [if_neg hc] at h
    simp only at h
    by_cases hd : (assocGet declared (computeIdTemplate ctx mm cm.data)).isSome
    · rw [if_pos hd] at h
      exact Or.inl h
    · rw [if_neg hd] at h
      rcases mem_assocSet h with h3 | h4
      · right
        rw [h3]
        exact Option.not_isSome_iff_eq_none.mp hd
      · exact Or.inl h4

theorem mem_needed_processMetric {ctx : SchedulerCtx}
    {declared needed : List (String × MonitoredMetric)}
    {cm : MetricHeader} {p : String × MonitoredMetric}
    (h : p ∈ (processMetric ctx declared needed cm).2.2) :
    p ∈ needed ∨ assocGet declared p.1 = none := by
  unfold processMetric at h
  by_cases hm : (buildMonitoredMap ctx.endpointMetrics).isEmpty = false
  · rw [if_pos hm] at h
    cases hg : assocGet (buildMonitoredMap ctx.endpointMetrics) cm.id with
    | none =>
      rw [hg] at h
      exact Or.inl h
    | some mm =>
      rw [hg] at h
      exact mem_needed_processMetricKnown h
  · rw [if_neg hm] at h
    exact mem_needed_processMetricKnown h

theorem mem_needed_tickLoop {ctx : SchedulerCtx}
    {declared : List (String × MonitoredMetric)} {collected : List MetricHeader}
    {p : String × MonitoredMetric}
    (h : p ∈ (tickLoopBody ctx declared collected).2.2) :
    assocGet declared p.1 = none := by
  have general :
      ∀ (l : List MetricHeader)
        (acc : List MetricHeader × List (List MetricHeader) ×
          List (String × MonitoredMetric)),
        p ∈ (l.foldl (tickStep ctx declared) acc).2.2 →
        p ∈ acc.2.2 ∨ assocGet declared p.1 = none := by
    intro l
    induction l with
    | nil =>
      intro acc hmem
      exact Or.inl hmem
    | cons cm rest ih =>
      intro acc hmem
      simp only [List.foldl_cons] at hmem
      rcases ih _ hmem with h1 | h2
      · exact mem_needed_processMetric h1
      · exact Or.inr h2
  rcases general collected ([], [], []) h with h1 | h2
  · cases h1
  · exact h2

/-! ## Equation lemmas and channel facts for one tick -/

theorem buildDefinition_id (ctx : SchedulerCtx) (details : List MetricDetails)
    (metricId : String) (mm : MonitoredMetric) :
    (buildDefinition ctx details metricId mm).id = metricId := rfl

theorem runTick_error_eq (ctx : SchedulerCtx)
    (declared : List (String × MonitoredMetric)) (tin : TickInput) (e : String)
    (h : tin.collectResult = .error e) :
    runTick ctx declared tin =
      ⟨[], [], declared, 0, collectErrorMsg ctx.collectorId tin.now e⟩ := by
  unfold runTick
  rw [h]

theorem runTick_ok_defsPushes (ctx : SchedulerCtx)
    (declared : List (String × MonitoredMetric)) (tin : TickInput)
    (cs : List MetricHeader) (h : tin.collectResult = .ok cs) :
    (runTick ctx declared tin).defsPushes =
      (if (tickLoopBody ctx declared cs).2.2.isEmpty = false then
        (createMetricDefinition ctx tin.detailsResult
          (tickLoopBody ctx declared cs).2.2).1.toList
      else []) := by
  unfold runTick
  rw [h]

theorem runTick_ok_declared (ctx : SchedulerCtx)
    (declared : List (String × MonitoredMetric)) (tin : TickInput)
    (cs : List MetricHeader) (h : tin.collectResult = .ok cs) :
    (runTick ctx declared tin).declared =
      (if (tickLoopBody ctx declared cs).2.2.isEmpty = false ∧
          (createMetricDefinition ctx tin.detailsResult
            (tickLoopBody ctx declared cs).2.2).2 = true then
        (tickLoopBody ctx declared cs).2.2.foldl
          (fun m p => assocSet m p.1 p.2) declared
      else declared) := by
  unfold runTick
  rw [h]

theorem runTick_defs_not_declared (ctx : SchedulerCtx)
    (declared : List (String × MonitoredMetric)) (tin : TickInput) :
    ∀ b ∈ (runTick ctx declared tin).defsPushes, ∀ d ∈ b,
      assocGet declared d.id = none := by
  intro b hb dd hd
  cases hcr : tin.collectResult with
  | error e =>
    rw [runTick_error_eq ctx declared tin e hcr] at hb
    cases hb
  | ok cs =>
    rw [runTick_ok_defsPushes ctx declared tin cs hcr] at hb
    by_cases hne : (tickLoopBody ctx declared cs).2.2.isEmpty = false
    · rw [if_pos hne] at hb
      unfold createMetricDefinition at hb
      simp only [hne, Bool.false_eq_true, if_false, Option.toList_some,
        List.mem_singleton] at hb
      subst hb
      rcases List.mem_map.mp hd with ⟨p, hp, hpd⟩
      rw [← hpd, buildDefinition_id]
      exact mem_needed_tickLoop hp
    · rw [if_neg hne] at hb
      cases hb

theorem runTick_defs_declared_after (ctx : SchedulerCtx)
    (declared : List (String × MonitoredMetric)) (tin : TickInput)
    (hok : detailsOk tin.detailsResult = true) :
    ∀ b ∈ (runTick ctx declared tin).defsPushes, ∀ d ∈ b,
      (assocGet (runTick ctx declared tin).declared d.id).isSome = true := by
  intro b hb dd hd
  cases hcr : tin.collectResult with
  | error e =>
    rw [runTick_error_eq ctx declared tin e hcr] at hb
    cases hb
  | ok cs =>
    rw [runTick_ok_defsPushes ctx declared tin cs hcr] at hb
    rw [runTick_ok_declared ctx declared tin cs hcr]
    by_cases hne : (tickLoopBody ctx declared cs).2.2.isEmpty = false
    · rw [if_pos hne] at hb
      unfold createMetricDefinition at hb
      simp only [hne, Bool.false_eq_true, if_false, Option.toList_some,
        List.mem_singleton] at hb
      subst hb
      rcases List.mem_map.mp hd with ⟨p, hp, hpd⟩
      rw [← hpd, buildDefinition_id]
      have hcond : (tickLoopBody ctx declared cs).2.2.isEmpty = false ∧
          (createMetricDefinition ctx tin.detailsResult
            (tickLoopBody ctx declared cs).2.2).2 = true := by
        refine ⟨hne, ?_⟩
        unfold createMetricDefinition
        simp [hne, hok]
      rw [if_pos hcond]
      exact assocGet_foldl_set_of_mem _ declared p.1 p.2 hp
    · rw [if_neg hne] at hb
      cases hb

theorem runTick_declared_mono (ctx : SchedulerCtx)
    (declared : List (String × MonitoredMetric)) (tin : TickInput) (k : String)
    (h : (assocGet declared k).isSome = true) :
    (assocGet (runTick ctx declared tin).declared k).isSome = true := by
  cases hcr : tin.collectResult with
  | error e =>
    rw [runTick_error_eq ctx declared tin e hcr]
    exact h
  | ok cs =>
    rw [runTick_ok_declared ctx declared tin cs hcr]
    by_cases hcond : (tickLoopBody ctx declared cs).2.2.isEmpty = false ∧
        (createMetricDefinition ctx tin.detailsResult
          (tickLoopBody ctx declared cs).2.2).2 = true
    · rw [if_pos hcond]
      exact assocGet_foldl_set_mono _ declared k h
    · rw [if_neg hcond]
      exact h

theorem runTick_defsPushes_len (ctx : SchedulerCtx)
    (declared : List (String × MonitoredMetric)) (tin : TickInput) :
    (runTick ctx declared tin).defsPushes.length ≤ 1 := by
  cases hcr : tin.collectResult with
  | error e =>
    rw [runTick_error_eq ctx declared tin e hcr]
    simp
  | ok cs =>
    rw [runTick_ok_defsPushes ctx declared tin cs hcr]
    by_cases hne : (tickLoopBody ctx declared cs).2.2.isEmpty = false
    · rw [if_pos hne]
      cases (createMetricDefinition ctx tin.detailsResult
        (tickLoopBody ctx declared cs).2.2).1 <;> simp
    · rw [if_neg hne]
      simp

/-! ## Uniqueness of definition pushes across a run with successful detail fetches -/

theorem runStep_defsPushed (ctx : SchedulerCtx) (st : RunState) (t : TickInput) :
    (runStep ctx st t).defsPushed =
      st.defsPushed ++ (runTick ctx st.declared t).defsPushes := rfl

theorem runStep_declared (ctx : SchedulerCtx) (st : RunState) (t : TickInput) :
    (runStep ctx st t).declared = (runTick ctx st.declared t).declared := rfl

theorem defsPushed_once_aux (ctx : SchedulerCtx) :
    ∀ (ticks : List TickInput) (st : RunState),
      (∀ t ∈ ticks, detailsOk t.detailsResult = true) →
      (∀ id, st.defsPushed.countP (fun b => b.any (fun d => d.id == id)) ≤ 1) →
      (∀ id, (∃ b ∈ st.defsPushed, b.any (fun d => d.id == id) = true) →
        (assocGet st.declared id).isSome = true) →
      ∀ id, (ticks.foldl (runStep ctx) st).defsPushed.countP
        (fun b => b.any (fun d => d.id == id)) ≤ 1 := by
  intro ticks
  induction ticks with
  | nil =>
    intro st _ h1 _ id
    exact h1 id
  | cons t rest ih =>
    intro st hok h1 h2 id
    simp only [List.foldl_cons]
    have hokt : detailsOk t.detailsResult = true := hok t (List.mem_cons_self t rest)
    have hokrest : ∀ t' ∈ rest, detailsOk t'.detailsResult = true :=
      fun t' ht' => hok t' (List.mem_cons_of_mem t ht')
    have inv1 : ∀ id', (runStep ctx st t).defsPushed.countP
        (fun b => b.any (fun d => d.id == id')) ≤ 1 := by
      intro id'
      rw [runStep_defsPushed, List.countP_append]
      by_cases hnew : (runTick ctx st.declared t).defsPushes.countP
          (fun b => b.any (fun d => d.id == id')) = 0
      · rw [hnew]
        simpa using h1 id'
      · have hex : ∃ b ∈ (runTick ctx st.declared t).defsPushes,
            b.any (fun d => d.id == id') = true := by
          by_contra hno
          push_neg at hno
          exact hnew (List.countP_eq_zero.mpr
            (fun b hb => by simp [hno b hb]))
        rcases hex with ⟨b, hb, hbany⟩
        rcases List.any_eq_true.mp hbany with ⟨d, hd, hdid⟩
        have hdeq : d.id = id' := by simpa using hdid
        have hnone : assocGet st.declared id' = none := by
          rw [← hdeq]
          exact runTick_defs_not_declared ctx st.declared t b hb d hd
        have hold : st.defsPushed.countP (fun b => b.any (fun d => d.id == id')) = 0 := by
          rw [List.countP_eq_zero]
          intro b' hb' hany
          have hsome := h2 id' ⟨b', hb', hany⟩
          rw [hnone] at hsome
          cases hsome
        rw [hold]
        have hle : (runTick ctx st.declared t).defsPushes.countP
            (fun b => b.any (fun d => d.id == id')) ≤
            (runTick ctx st.declared t).defsPushes.length :=
          List.countP_le_length _
        have hlen := runTick_defsPushes_len ctx st.declared t
        omega
    have inv2 : ∀ id', (∃ b ∈ (runStep ctx st t).defsPushed,
        b.any (fun d => d.id == id') = true) →
        (assocGet (runStep ctx st t).declared id').isSome = true := by
      intro id' hex
      rcases hex with ⟨b, hb, hbany⟩
      rw [runStep_defsPushed] at hb
      rw [runStep_declared]
      rcases List.mem_append.mp hb with holdb | hnewb
      · exact runTick_declared_mono ctx st.declared t id' (h2 id' ⟨b, holdb, hbany⟩)
      · rcases List.any_eq_true.mp hbany with ⟨d, hd, hdid⟩
        have hdeq : d.id = id' := by simpa using hdid
        rw [← hdeq]
        exact runTick_defs_declared_after ctx st.declared t hokt b hnewb d hd
    exact ih (runStep ctx st t) hokrest inv1 inv2 id

/-! ## Claim theorems -/

/-- C1: for a collected metric whose id, after prefix and template expansion,
holds no unresolved token but whose datapoints carry at least one label, the
id fed to the split step is rewritten to
`<id>\x7bk1=$\x7bk1\x7d,k2=$\x7bk2\x7d,…\x7d`, where the ks are exactly the union of the
label keys observed across the metric's datapoints, sorted lexicographically
without duplicates. -/
theorem c1_plain_id_label_rewrite (ctx : SchedulerCtx) (mm : MonitoredMetric)
    (data : List Datapoint)
    (h1 : strContainsTok (expandedMetricId ctx mm) = false)
    (h2 : ∃ dp ∈ data, dp.tags ≠ []) :
    computeIdTemplate ctx mm data =
      expandedMetricId ctx mm ++ "\x7b" ++
        specKeysTemplate (sortedLabelKeys data) ++ "\x7d" ∧
    (∀ k, k ∈ sortedLabelKeys data ↔ ∃ dp ∈ data, ∃ v, (k, v) ∈ dp.tags) ∧
    (sortedLabelKeys data).Sorted (fun a b => a ≤ b) ∧
    (sortedLabelKeys data).Nodup := by
  have hne := sortedLabelKeys_ne_nil h2
  refine ⟨?_, fun k => mem_sortedLabelKeys data k,
    sortedLabelKeys_sorted data, sortedLabelKeys_nodup data⟩
  have hkeys : (sortedLabelKeys data).isEmpty = false := by
    cases hk : sortedLabelKeys data with
    | nil => exact absurd hk hne
    | cons a l => rfl
  unfold computeIdTemplate
  rw [if_pos h1, if_pos hkeys, keysTemplate_eq_spec]

theorem c1_plain_id_label_rewrite_witness :
    computeIdTemplate ⟨"ep", "", [], "t", [], [], [], []⟩
        ⟨"m", "m", "gauge", "", "", []⟩
        [⟨0, 1, [("b", "1")]⟩, ⟨0, 2, [("a", "2")]⟩] =
      expandedMetricId ⟨"ep", "", [], "t", [], [], [], []⟩
          ⟨"m", "m", "gauge", "", "", []⟩ ++
        "\x7b" ++
        specKeysTemplate
          (sortedLabelKeys [⟨0, 1, [("b", "1")]⟩, ⟨0, 2, [("a", "2")]⟩]) ++
        "\x7d" :=
  (c1_plain_id_label_rewrite _ _ _ (by decide) (by decide)).1

/-- C2: when the expanded id still holds an unresolved token (templated or
just rewritten), the split branch pushes exactly one series per datapoint:
each carries that single datapoint, its id is the template expanded against
the datapoint's own tag map, tenant and type are taken unchanged from the
collected metric, and a token missing from the tag map expands to the empty
string. -/
theorem c2_templated_split (ctx : SchedulerCtx)
    (declared needed : List (String × MonitoredMetric))
    (cm : MetricHeader) (mm : MonitoredMetric)
    (h : strContainsTok (computeIdTemplate ctx mm cm.data) = true) :
    (processMetricKnown ctx declared needed cm mm).2.1 =
      [cm.data.map (fun dp =>
        ⟨osExpand (mappingFunc ⟨dp.tags, false, false⟩ ctx.osEnv)
            (computeIdTemplate ctx mm cm.data),
          cm.tenant, cm.type, [dp]⟩)] ∧
    (∀ (dp : Datapoint) (name : String), assocGet dp.tags name = none →
      mappingFunc ⟨dp.tags, false, false⟩ ctx.osEnv name = "") := by
  constructor
  · unfold processMetricKnown
    rw [if_pos h]
    rfl
  · intro dp name hnone
    exact mappingFunc_missing_empty dp.tags ctx.osEnv name hnone

theorem c2_templated_split_witness :
    (processMetricKnown ⟨"ep", "", [], "t", [], [], [], []⟩ [] []
      ⟨"m", "t", "counter", [⟨0, 1, [("k", "a")]⟩, ⟨0, 2, [("k", "b")]⟩]⟩
      ⟨"m_$\x7bk\x7d", "m", "counter", "", "", []⟩).2.1 =
    [[⟨"m_a", "t", "counter", [⟨0, 1, [("k", "a")]⟩]⟩,
      ⟨"m_b", "t", "counter", [⟨0, 2, [("k", "b")]⟩]⟩]] := by
  have h := (c2_templated_split ⟨"ep", "", [], "t", [], [], [], []⟩ [] []
    ⟨"m", "t", "counter", [⟨0, 1, [("k", "a")]⟩, ⟨0, 2, [("k", "b")]⟩]⟩
    ⟨"m_$\x7bk\x7d", "m", "counter", "", "", []⟩ (by decide)).1
  rw [h]
  decide

/-- C7: on a tick whose `CollectMetrics` call fails, the scheduler only writes
a status message that carries the error text: no metrics-channel push, no
definitions-channel push, the declared map is unchanged and the datapoint
counter is not incremented. -/
theorem c7_error_tick (ctx : SchedulerCtx)
    (declared : List (String × MonitoredMetric)) (tin : TickInput) (e : String)
    (h : tin.collectResult = .error e) :
    runTick ctx declared tin =
      ⟨[], [], declared, 0, collectErrorMsg ctx.collectorId tin.now e⟩ ∧
    ∃ p, collectErrorMsg ctx.collectorId tin.now e = p ++ e :=
  ⟨runTick_error_eq ctx declared tin e h,
    ⟨"Failed to collect metrics from [" ++ ctx.collectorId ++ "] at [" ++
      tin.now ++ "]. err=", rfl⟩⟩

theorem c7_error_tick_witness :
    runTick ⟨"ep", "", [], "t", [], [], [], []⟩ []
        ⟨.error "boom", .ok [], "now", "1ms"⟩ =
      ⟨[], [], [], 0,
        collectErrorMsg "ep" "now" "boom"⟩ ∧
    ∃ p, collectErrorMsg "ep" "now" "boom" = p ++ "boom" :=
  c7_error_tick ⟨"ep", "", [], "t", [], [], [], []⟩ []
    ⟨.error "boom", .ok [], "now", "1ms"⟩ "boom" rfl

/-- The same scheduler context with the OS process environment replaced. -/
def withOsEnvSet (ctx : SchedulerCtx) (o : Env) : SchedulerCtx :=
  ⟨ctx.collectorId, ctx.metricIdPfx, ctx.globalTags, ctx.tenant,
    ctx.endpointTags, ctx.endpointMetrics, ctx.additionalEnv, o⟩

/-- C9: the expansion of the `MonitoredMetric.id` template and of the
endpoint- and metric-layer tags never reads the OS environment: with the same
additional environment (and, for the tag layers, the same injected expansion
environment), any two OS environments give identical results. -/
theorem c9_no_os_env (ctx : SchedulerCtx) (o' : Env) (mm : MonitoredMetric)
    (env : Env) :
    monitoredIdExpansion (withOsEnvSet ctx o') mm = monitoredIdExpansion ctx mm ∧
    endpointLayer (withOsEnvSet ctx o') env = endpointLayer ctx env ∧
    metricCustomLayer (withOsEnvSet ctx o') mm env = metricCustomLayer ctx mm env := by
  refine ⟨?_, ?_, ?_⟩
  · unfold monitoredIdExpansion idMappingCfg withOsEnvSet
    rw [mappingFunc_no_os ctx.additionalEnv true o' ctx.osEnv]
  · unfold endpointLayer expandTokens withOsEnvSet
    rw [mappingFunc_no_os env false o' ctx.osEnv]
  · unfold metricCustomLayer expandTokens withOsEnvSet
    rw [mappingFunc_no_os env false o' ctx.osEnv]

/-- C10: `StartCollecting` on a disabled endpoint only records a status
message: the ticker table is unchanged (in particular a scheduler already
running under the same id is not stopped or replaced). -/
theorem c10_disabled_noop (parseDuration : String → Option Int)
    (defaultIntervalStr minimumIntervalStr : String)
    (st : ManagerState) (c : CollectorInfo) (h : c.enabled = false) :
    (startCollecting parseDuration defaultIntervalStr minimumIntervalStr st c).tickers =
      st.tickers ∧
    (startCollecting parseDuration defaultIntervalStr minimumIntervalStr st c).statusEndpoints =
      assocSet st.statusEndpoints c.id (disabledMsg c.id) := by
  unfold startCollecting
  rw [if_pos h]
  exact ⟨rfl, rfl⟩

theorem c10_disabled_noop_witness :
    (startCollecting (fun _ => none) "5m" "10s"
      ⟨[("X|X|prometheus|http://e", ⟨30000000000⟩)], []⟩
      ⟨"X|X|prometheus|http://e", false, "1s"⟩).tickers =
      [("X|X|prometheus|http://e", ⟨30000000000⟩)] :=
  (c10_disabled_noop (fun _ => none) "5m" "10s"
    ⟨[("X|X|prometheus|http://e", ⟨30000000000⟩)], []⟩
    ⟨"X|X|prometheus|http://e", false, "1s"⟩ rfl).1

/-- C3: with a non-empty declared metric list, a collected metric whose name
has no declaration is emptied and skipped (and a tick collecting only it
pushes one empty batch, declares nothing and counts nothing); with an empty
list, the metric is processed with the fabricated synthetic declaration
whose name and id are the collected name and whose type is the collected
type. -/
theorem c3_matching (ctx : SchedulerCtx)
    (declared needed : List (String × MonitoredMetric)) (cm : MetricHeader) :
    ((buildMonitoredMap ctx.endpointMetrics).isEmpty = false →
      assocGet (buildMonitoredMap ctx.endpointMetrics) cm.id = none →
      processMetric ctx declared needed cm = (setHdrId cm "", [], needed) ∧
      ∀ (dr : Except String (List MetricDetails)) (now el : String),
        runTick ctx declared ⟨.ok [cm], dr, now, el⟩ =
          ⟨[[]], [], declared, 0, okStatusMsg now 0 el⟩) ∧
    ((buildMonitoredMap ctx.endpointMetrics).isEmpty = true →
      processMetric ctx declared needed cm =
        processMetricKnown ctx declared needed cm (syntheticMonitoredMetric cm)) := by
  constructor
  · intro hm hlook
    have hpm : ∀ nd, processMetric ctx declared nd cm = (setHdrId cm "", [], nd) := by
      intro nd
      unfold processMetric
      rw [if_pos hm, hlook]
    refine ⟨hpm needed, ?_⟩
    intro dr now el
    unfold runTick tickLoopBody
    simp only [List.foldl_cons, List.foldl_nil, tickStep, hpm]
    simp [setHdrId, createMetricDefinition]
  · intro hm
    have hnot : ¬((buildMonitoredMap ctx.endpointMetrics).isEmpty = false) := by
      rw [hm]
      simp
    unfold processMetric
    rw [if_neg hnot]

theorem c3_matching_witness :
    processMetric ⟨"ep", "", [], "t", [],
        [⟨"foo", "foo", "counter", "", "", []⟩], [], []⟩ [] []
        ⟨"baz", "t", "gauge", [⟨0, 1, []⟩]⟩ =
      (setHdrId ⟨"baz", "t", "gauge", [⟨0, 1, []⟩]⟩ "", [], []) :=
  ((c3_matching ⟨"ep", "", [], "t", [],
      [⟨"foo", "foo", "counter", "", "", []⟩], [], []⟩ [] []
      ⟨"baz", "t", "gauge", [⟨0, 1, []⟩]⟩).1 (by decide) (by decide)).1

/-- C4: in the built metric definition, a tag key set in the global layer wins
over the metric and endpoint layers; a key absent from the global layer but
set in the metric layer carries the metric layer's value; and the fixed
`description` and `units` tags are placed inside the metric layer (before the
precedence merge, so the global layer can still override them), each only when
its value is non-empty. -/
theorem c4_tag_precedence (ctx : SchedulerCtx) (details : List MetricDetails)
    (metricId : String) (mm : MonitoredMetric) (env : Env)
    (henv : env = defExpansionEnv ctx mm metricId (getMetricUnits mm.units)
      (resolvedDescription details mm))
    (hG : ((globalLayer ctx env).map Prod.fst).Nodup)
    (hM : ((metricLayer ctx mm env (resolvedDescription details mm)
      (getMetricUnits mm.units)).map Prod.fst).Nodup) :
    (∀ k gv, assocGet (globalLayer ctx env) k = some gv →
      assocGet (buildDefinition ctx details metricId mm).tags k = some gv) ∧
    (∀ k mv, assocGet (globalLayer ctx env) k = none →
      assocGet (metricLayer ctx mm env (resolvedDescription details mm)
        (getMetricUnits mm.units)) k = some mv →
      assocGet (buildDefinition ctx details metricId mm).tags k = some mv) ∧
    (getMetricUnits mm.units ≠ "" →
      assocGet (metricLayer ctx mm env (resolvedDescription details mm)
        (getMetricUnits mm.units)) "units" = some (getMetricUnits mm.units)) ∧
    (resolvedDescription details mm ≠ "" →
      assocGet (metricLayer ctx mm env (resolvedDescription details mm)
        (getMetricUnits mm.units)) "description" =
        some (resolvedDescription details mm)) := by
  subst henv
  have htags : (buildDefinition ctx details metricId mm).tags =
      appendTags
        (appendTags (appendTags []
          (endpointLayer ctx (defExpansionEnv ctx mm metricId
            (getMetricUnits mm.units) (resolvedDescription details mm))))
          (metricLayer ctx mm (defExpansionEnv ctx mm metricId
            (getMetricUnits mm.units) (resolvedDescription details mm))
            (resolvedDescription details mm) (getMetricUnits mm.units)))
        (globalLayer ctx (defExpansionEnv ctx mm metricId
          (getMetricUnits mm.units) (resolvedDescription details mm))) := rfl
  refine ⟨?_, ?_, ?_, ?_⟩
  · intro k gv hgv
    rw [htags, assocGet_appendTags k _ _ hG, hgv]
  · intro k mv hgn hmv
    rw [htags, assocGet_appendTags k _ _ hG, hgn,
      assocGet_appendTags k _ _ hM, hmv]
  · intro hu
    unfold metricLayer
    rw [if_pos hu, assocGet_assocSet]
    simp
  · intro hd
    unfold metricLayer
    by_cases hu : getMetricUnits mm.units ≠ ""
    · rw [if_pos hu, assocGet_assocSet,
        if_neg (by decide : ¬("description" : String) = "units"),
        if_pos hd, assocGet_assocSet]
      simp
    · rw [if_neg hu, if_pos hd, assocGet_assocSet]
      simp

theorem c4_tag_precedence_witness :
    assocGet (buildDefinition
      ⟨"ep", "", [("env", "$\x7bENV\x7d")], "t", [("env", "test")],
        [], [], [("ENV", "prod")]⟩
      [] "m" ⟨"m", "m", "gauge", "", "", [("env", "metric-level")]⟩).tags "env" =
      some "prod" :=
  ((c4_tag_precedence
    ⟨"ep", "", [("env", "$\x7bENV\x7d")], "t", [("env", "test")],
      [], [], [("ENV", "prod")]⟩
    [] "m" ⟨"m", "m", "gauge", "", "", [("env", "metric-level")]⟩
    _ rfl (by decide) (by decide)).1) "env" "prod" (by decide)

/-- C6: on an enabled endpoint whose interval strings parse, the scheduler's
ticker is created at exactly the effective interval — the endpoint's interval
when present, else the default, clamped up to the configured minimum — so it
is never below the minimum. -/
theorem c6_interval_clamp (parseDuration : String → Option Int)
    (defaultIntervalStr minimumIntervalStr epStr : String) (ci m : Int)
    (h1 : epStr ≠ "" → parseDuration epStr = some ci)
    (h2 : epStr = "" → parseDuration defaultIntervalStr = some ci)
    (h3 : parseDuration minimumIntervalStr = some m)
    (st : ManagerState) (c : CollectorInfo)
    (hc : c.enabled = true) (hs : c.collectionIntervalStr = epStr) :
    effectiveInterval parseDuration defaultIntervalStr minimumIntervalStr epStr =
      max ci m ∧
    m ≤ effectiveInterval parseDuration defaultIntervalStr minimumIntervalStr epStr ∧
    assocGet (startCollecting parseDuration defaultIntervalStr minimumIntervalStr
        st c).tickers c.id =
      some ⟨effectiveInterval parseDuration defaultIntervalStr minimumIntervalStr
        epStr⟩ := by
  have hmax : (if ci < m then m else ci) = max ci m := by
    by_cases hcm : ci < m
    · rw [if_pos hcm]
      exact (max_eq_right hcm.le).symm
    · rw [if_neg hcm]
      exact (max_eq_left (le_of_not_lt hcm)).symm
  have heff : effectiveInterval parseDuration defaultIntervalStr
      minimumIntervalStr epStr = max ci m := by
    unfold effectiveInterval
    by_cases hep : epStr = ""
    · rw [if_pos hep]
      simp only [h2 hep, h3]
      exact hmax
    · rw [if_neg hep]
      simp only [h1 hep, h3]
      exact hmax
  refine ⟨heff, by rw [heff]; exact le_max_right ci m, ?_⟩
  have hnot : ¬(c.enabled = false) := by
    rw [hc]
    simp
  unfold startCollecting
  rw [if_neg hnot, hs]
  simp [assocGet_assocSet]

theorem c6_interval_clamp_witness :
    effectiveInterval
        (fun s => if s = "1s" then some 1000000000
          else if s = "30s" then some 30000000000
          else if s = "5m" then some 300000000000 else none)
        "5m" "30s" "1s" = max 1000000000 30000000000 ∧
    (30000000000 : Int) ≤ effectiveInterval
        (fun s => if s = "1s" then some 1000000000
          else if s = "30s" then some 30000000000
          else if s = "5m" then some 300000000000 else none)
        "5m" "30s" "1s" :=
  let thm := c6_interval_clamp
    (fun s => if s = "1s" then some 1000000000
      else if s = "30s" then some 30000000000
      else if s = "5m" then some 300000000000 else none)
    "5m" "30s" "1s" 1000000000 30000000000
    (by intro _; decide) (by intro h; exact absurd h (by decide)) (by decide)
    ⟨[], []⟩ ⟨"ep", true, "1s"⟩ rfl rfl
  ⟨thm.1, thm.2.1⟩

/-- C8: for a fixed label-key multiset, the computed id template is identical
whatever the order of the datapoints and of each datapoint's tag entries (it
is driven by the lexicographic sort of the distinct keys), and permuting the
datapoint list only permutes the split-out series ids. -/
theorem c8_id_stability (ctx : SchedulerCtx) (mm : MonitoredMetric)
    (data data' : List Datapoint)
    (hkeys : List.Perm (labelKeysOf data) (labelKeysOf data')) :
    computeIdTemplate ctx mm data = computeIdTemplate ctx mm data' ∧
    (∀ tenant ty name : String, List.Perm data data' →
      List.Perm
        ((splitMetric ctx ⟨name, tenant, ty, data⟩
          (computeIdTemplate ctx mm data)).map MetricHeader.id)
        ((splitMetric ctx ⟨name, tenant, ty, data'⟩
          (computeIdTemplate ctx mm data')).map MetricHeader.id)) := by
  have hkeq : sortedLabelKeys data = sortedLabelKeys data' :=
    sortedLabelKeys_perm_invariant hkeys
  have hteq : computeIdTemplate ctx mm data = computeIdTemplate ctx mm data' := by
    unfold computeIdTemplate
    rw [hkeq]
  refine ⟨hteq, ?_⟩
  intro tenant ty name hdp
  rw [hteq]
  unfold splitMetric
  rw [List.map_map, List.map_map]
  exact hdp.map _

theorem c8_id_stability_witness :
    computeIdTemplate ⟨"ep", "", [], "t", [], [], [], []⟩
        ⟨"m", "m", "gauge", "", "", []⟩
        [⟨0, 1, [("b", "1"), ("a", "2")]⟩, ⟨0, 2, [("c", "3")]⟩] =
      computeIdTemplate ⟨"ep", "", [], "t", [], [], [], []⟩
        ⟨"m", "m", "gauge", "", "", []⟩
        [⟨0, 2, [("c", "3")]⟩, ⟨0, 1, [("a", "2"), ("b", "1")]⟩] :=
  (c8_id_stability ⟨"ep", "", [], "t", [], [], [], []⟩
    ⟨"m", "m", "gauge", "", "", []⟩
    [⟨0, 1, [("b", "1"), ("a", "2")]⟩, ⟨0, 2, [("c", "3")]⟩]
    [⟨0, 2, [("c", "3")]⟩, ⟨0, 1, [("a", "2"), ("b", "1")]⟩]
    (by decide)).1

/-- C5 counterexample: when the first tick's `CollectMetricDetails` call fails,
the definitions batch is pushed anyway but not marked declared, so the second
tick pushes the same final id again — the id `m` reaches the definitions
channel in two distinct batches of the same scheduler run. -/
theorem c5_counterexample :
    2 ≤ ((runScheduler ⟨"ep", "", [], "t", [], [], [], []⟩
      [⟨.ok [⟨"m", "t", "gauge", [⟨0, 0, []⟩]⟩], .error "boom", "n1", "e1"⟩,
       ⟨.ok [⟨"m", "t", "gauge", [⟨0, 0, []⟩]⟩], .ok [], "n2", "e2"⟩]).defsPushed.countP
      (fun b => b.any (fun d => d.id == "m"))) := by decide

/-- C5 (amended): provided every `CollectMetricDetails` call of the run
succeeds, each final metric id appears in at most one batch pushed on the
metric-definitions channel across the scheduler's lifetime. -/
theorem c5_amended_defs_once (ctx : SchedulerCtx) (ticks : List TickInput)
    (hok : ∀ t ∈ ticks, detailsOk t.detailsResult = true) (id : String) :
    ((runScheduler ctx ticks).defsPushed.countP
      (fun b => b.any (fun d => d.id == id))) ≤ 1 := by
  unfold runScheduler
  refine defsPushed_once_aux ctx ticks initRunState hok ?_ ?_ id
  · intro id'
    simp [initRunState]
  · intro id' h
    rcases h with ⟨b, hb, _⟩
    simp [initRunState] at hb

theorem c5_amended_defs_once_witness :
    ((runScheduler ⟨"ep", "", [], "t", [], [], [], []⟩
      [⟨.ok [⟨"m", "t", "gauge", [⟨0, 0, []⟩]⟩], .ok [], "n1", "e1"⟩,
       ⟨.ok [⟨"m", "t", "gauge", [⟨0, 0, []⟩]⟩], .ok [], "n2", "e2"⟩]).defsPushed.countP
      (fun b => b.any (fun d => d.id == "m"))) ≤ 1 :=
  c5_amended_defs_once ⟨"ep", "", [], "t", [], [], [], []⟩
    [⟨.ok [⟨"m", "t", "gauge", [⟨0, 0, []⟩]⟩], .ok [], "n1", "e1"⟩,
     ⟨.ok [⟨"m", "t", "gauge", [⟨0, 0, []⟩]⟩], .ok [], "n2", "e2"⟩]
    (by decide) "m"
